import Mathlib

/-!
Shallow embedding of `src/main.py`, the "OCR Text Extraction API": a FastAPI
service that validates an uploaded JPEG, forwards its bytes to a Google Cloud
Vision client, and shapes the result or failure into an HTTP response.

Modelling conventions: Python strings are Lean `String`s, except filenames,
which are `List Char` so that `os.path.splitext` can be stated character by
character; uploaded bytes are `List Nat`; the float constants (the confidence
placeholder and timestamps) are rationals.  `str.lower` is modelled by
`Char.toLower` (basic-latin lowercasing).  The Vision client is a function
from image bytes to the provider's structured response; `none` models the
global `vision_client` being `None` after a failed startup.
-/

/-- `MAX_FILE_SIZE = 10 * 1024 * 1024` (src/main.py line 17). -/
def MAX_FILE_SIZE : Nat := 10 * 1024 * 1024

/-- `ALLOWED_CONTENT_TYPES` (src/main.py line 18). -/
def ALLOWED_CONTENT_TYPES : List String := ["image/jpeg", "image/jpg"]

/-- `ALLOWED_EXTENSIONS` (src/main.py line 19). -/
def ALLOWED_EXTENSIONS : List (List Char) := [".jpg".data, ".jpeg".data]

/-- A raised `fastapi.HTTPException`: status code and detail message. -/
structure HTTPError where
  status : Nat
  detail : String
  deriving Repr, DecidableEq

/-- `MetadataModel` (src/main.py lines 28-31). -/
structure MetadataModel where
  filename : Option (List Char)
  file_size_bytes : Nat
  content_type : Option String
  deriving Repr, DecidableEq

/-- `SuccessResponseModel` (src/main.py lines 34-39). -/
structure SuccessResponseModel where
  success : Bool := true
  text : String
  confidence : ℚ
  processing_time_ms : Nat
  metadata : MetadataModel
  deriving Repr, DecidableEq

/-- `ErrorResponseModel` (src/main.py lines 42-46). -/
structure ErrorResponseModel where
  success : Bool := false
  error : String
  detail : String
  processing_time_ms : Nat := 0
  deriving Repr, DecidableEq

/-- `HealthResponseModel` (src/main.py lines 56-59). -/
structure HealthResponseModel where
  status : String
  vision_api : String
  timestamp : ℚ
  deriving Repr, DecidableEq

/-- One entry of the Vision response's `text_annotations` list. -/
structure TextAnn where
  description : String
  deriving Repr, DecidableEq

/-- The `error` field of a Vision response. -/
structure VisionError where
  message : String
  deriving Repr, DecidableEq

/-- The structured response of `vision_client.text_detection`. -/
structure VisionResponse where
  error : VisionError
  text_annotations : List TextAnn
  deriving Repr, DecidableEq

/-- The Vision client, as the service uses it: one operation taking image
bytes to a structured response. -/
def VisionClient : Type := List Nat → VisionResponse

/-- `vision_client.text_detection(image=image)` (src/main.py line 136). -/
def text_detection (client : VisionClient) (image : List Nat) : VisionResponse :=
  client image

/-- An uploaded multipart file: declared content type, declared filename, and
the bytes `await image.read()` yields.  `content_type` and `filename` are
`Optional[str]` on `fastapi.UploadFile`. -/
structure UploadFile where
  content_type : Option String
  filename : Option (List Char)
  content : List Nat

/-- Python `str.rfind` for a single character: greatest index of `c` in `p`,
`-1` when absent. -/
def rfind (c : Char) : List Char → Int
  | [] => -1
  | a :: as =>
    let r := rfind c as
    if r ≥ 0 then r + 1 else if a = c then 0 else -1

/-- The split position chosen by `posixpath.splitext`: the index of the last
`'.'`, provided it lies strictly after the last `'/'` and at least one
character strictly between that `'/'` and the dot is not itself a dot
(leading dots of a basename never start an extension); `none` when the path
has no extension. -/
def splitextIdx (p : List Char) : Option Nat :=
  let sepIndex := rfind '/' p
  let dotIndex := rfind '.' p
  if dotIndex > sepIndex ∧
      ((List.range' (sepIndex + 1).toNat (dotIndex.toNat - (sepIndex + 1).toNat)).any
        fun i => decide (p.getD i ' ' ≠ '.')) = true then
    some dotIndex.toNat
  else
    none

/-- `os.path.splitext` (POSIX): root and extension of a path. -/
def splitext (p : List Char) : List Char × List Char :=
  match splitextIdx p with
  | some d => (p.take d, p.drop d)
  | none => (p, [])

/-- How a Python f-string renders the declared content type (`None` or the
string itself). -/
def showCT : Option String → String
  | none => "None"
  | some s => s

/-- `validate_image` (src/main.py lines 94-118): `some` error when a check
fails (content type, then missing filename, then extension), `none` when the
file passes. -/
def validate_image (file : UploadFile) : Option HTTPError :=
  if file.content_type ∉ ALLOWED_CONTENT_TYPES.map some then
    some ⟨400, "Invalid file format. Only JPG/JPEG images are supported. Received: "
            ++ showCT file.content_type⟩
  else if (file.filename.getD []).isEmpty then
    some ⟨400, "Filename is required"⟩
  else
    let extension := (splitext (file.filename.getD [])).2.map Char.toLower
    if extension ∉ ALLOWED_EXTENSIONS then
      some ⟨400, "Invalid file extension. Only .jpg and .jpeg are supported. Received: "
              ++ extension.asString⟩
    else
      none

/-- `extract_text_from_image` (src/main.py lines 121-153).  The second
component counts how many `text_detection` calls were made (0 or 1), so that
"the provider was not contacted" and "no retry" are statable. -/
def extract_text_from_image (vision_client : Option VisionClient)
    (image_content : List Nat) : Except HTTPError (String × ℚ) × Nat :=
  match vision_client with
  | none => (.error ⟨503, "Vision API service unavailable"⟩, 0)
  | some client =>
    if image_content.isEmpty then
      (.error ⟨400, "Empty image content"⟩, 0)
    else
      let response := text_detection client image_content
      if response.error.message ≠ "" then
        (.error ⟨500, "Failed to process image with Vision API"⟩, 1)
      else
        match response.text_annotations with
        | [] => (.ok ("", 0), 1)
        | t :: _ =>
          let extracted_text := t.description
          let confidence : ℚ := if extracted_text ≠ "" then 0.95 else 0
          (.ok (extracted_text, confidence), 1)

/-- The `POST /extract-text` handler `extract_text` (src/main.py lines
182-224); `elapsed_ms` stands for the measured wall-clock processing time. -/
def extract_text (vision_client : Option VisionClient) (image : UploadFile)
    (elapsed_ms : Nat) : Except HTTPError SuccessResponseModel :=
  match validate_image image with
  | some e => .error e
  | none =>
    let image_content := image.content
    let file_size := image_content.length
    if file_size > MAX_FILE_SIZE then
      .error ⟨413, "File too large. Maximum size is 10MB"⟩
    else if file_size = 0 then
      .error ⟨400, "Empty file uploaded"⟩
    else
      match (extract_text_from_image vision_client image_content).1 with
      | .error e => .error e
      | .ok (extracted_text, confidence) =>
        .ok { success := true
              text := extracted_text
              confidence := confidence
              processing_time_ms := elapsed_ms
              metadata := { filename := image.filename
                            file_size_bytes := file_size
                            content_type := image.content_type } }

/-- A JSON body the service can send: the success model, the error envelope,
or FastAPI's default exception JSON carrying only a `detail` field. -/
inductive Body
  | success (s : SuccessResponseModel)
  | errorEnvelope (e : ErrorResponseModel)
  | detailOnly (detail : String)
  deriving Repr, DecidableEq

/-- An HTTP response: status code and JSON body. -/
structure Response where
  status : Nat
  body : Body
  deriving Repr, DecidableEq

/-- The custom 413 handler `payload_too_large_handler` (src/main.py lines
230-241): a fixed error envelope. -/
def payload_too_large_handler : Response :=
  ⟨413, .errorEnvelope { error := "Payload too large"
                         detail := "File size exceeds 10MB limit" }⟩

/-- FastAPI's dispatch of the handler outcome: `200` with the success model;
for a raised `HTTPException`, the registered status-413 handler when the
status is 413, otherwise FastAPI's default exception response, whose JSON
body carries only the `detail` string. -/
def respond (r : Except HTTPError SuccessResponseModel) : Response :=
  match r with
  | .ok s => ⟨200, .success s⟩
  | .error e =>
    if e.status = 413 then payload_too_large_handler
    else ⟨e.status, .detailOnly e.detail⟩

/-- Whether a body is the failure envelope. -/
def Body.isEnvelope : Body → Bool
  | .errorEnvelope _ => true
  | _ => false

/-- The `GET /health` handler (src/main.py lines 172-179); `now` stands for
`time.time()`. -/
def health (vision_client : Option VisionClient) (now : ℚ) : HealthResponseModel :=
  { status := "healthy"
    vision_api := if vision_client.isSome then "healthy" else "unavailable"
    timestamp := now }

/-- A filename with its `splitext` extension lowercased: the transformation
the case-insensitivity claim compares against. -/
def lowerExt (name : List Char) : List Char :=
  (splitext name).1 ++ (splitext name).2.map Char.toLower

example : splitext "a.jpg".data = ("a".data, ".jpg".data) := by decide

example : splitext ".jpg".data = (".jpg".data, []) := by decide

example : splitext "dir/x..JPG".data = ("dir/x.".data, ".JPG".data) := by decide

example : splitext "a.b/c".data = ("a.b/c".data, []) := by decide

example : validate_image ⟨some "image/jpeg", some "a.JPG".data, [1]⟩ = none := by decide

example :
    (extract_text_from_image (some fun _ => ⟨⟨""⟩, [⟨"Hi"⟩]⟩) [1]).1 =
      .ok ("Hi", 0.95) := by
  rfl

-- ## General helper lemmas

theorem take_append_of_le {α : Type} (l m : List α) (k : Nat) (h : k ≤ l.length) :
    (l ++ m).take k = l.take k := by
  conv_lhs => rw [← List.take_append_drop k l, List.append_assoc]
  refine List.take_left' ?_
  simp only [List.length_take]
  omega

theorem str_append_ne_of_length_lt (p a q : String) (h : q.length < p.length) :
    p ++ a ≠ q := by
  intro he
  have hl := congrArg String.length he
  rw [String.length_append] at hl
  omega

theorem str_append_ne_append (p a q b : String) (k : Nat)
    (h1 : k ≤ p.length) (h2 : k ≤ q.length) (h : p.data.take k ≠ q.data.take k) :
    p ++ a ≠ q ++ b := by
  intro he
  apply h
  have hd := congrArg String.data he
  rw [String.data_append, String.data_append] at hd
  have hk := congrArg (List.take k) hd
  rwa [take_append_of_le _ _ _ h1, take_append_of_le _ _ _ h2] at hk

theorem HTTPError.ne_of_status {e1 e2 : HTTPError} (h : e1.status ≠ e2.status) :
    e1 ≠ e2 :=
  fun he => h (congrArg HTTPError.status he)

-- ## Characterizations of `validate_image`

theorem validate_image_ct {file : UploadFile}
    (h : file.content_type ∉ ALLOWED_CONTENT_TYPES.map some) :
    validate_image file =
      some ⟨400, "Invalid file format. Only JPG/JPEG images are supported. Received: "
              ++ showCT file.content_type⟩ := by
  unfold validate_image
  rw [if_pos h]

theorem validate_image_name {file : UploadFile}
    (h1 : file.content_type ∈ ALLOWED_CONTENT_TYPES.map some)
    (h2 : (file.filename.getD []).isEmpty = true) :
    validate_image file = some ⟨400, "Filename is required"⟩ := by
  unfold validate_image
  rw [if_neg (not_not_intro h1), if_pos h2]

theorem validate_image_ext {file : UploadFile}
    (h1 : file.content_type ∈ ALLOWED_CONTENT_TYPES.map some)
    (h2 : (file.filename.getD []).isEmpty = false)
    (h3 : (splitext (file.filename.getD [])).2.map Char.toLower ∉ ALLOWED_EXTENSIONS) :
    validate_image file =
      some ⟨400, "Invalid file extension. Only .jpg and .jpeg are supported. Received: "
              ++ ((splitext (file.filename.getD [])).2.map Char.toLower).asString⟩ := by
  unfold validate_image
  rw [if_neg (not_not_intro h1), if_neg (by simp [h2])]
  dsimp only
  rw [if_pos h3]

theorem validate_image_none {file : UploadFile}
    (h1 : file.content_type ∈ ALLOWED_CONTENT_TYPES.map some)
    (h2 : (file.filename.getD []).isEmpty = false)
    (h3 : (splitext (file.filename.getD [])).2.map Char.toLower ∈ ALLOWED_EXTENSIONS) :
    validate_image file = none := by
  unfold validate_image
  rw [if_neg (not_not_intro h1), if_neg (by simp [h2])]
  dsimp only
  rw [if_neg (not_not_intro h3)]

theorem validate_image_cases {file : UploadFile} {e : HTTPError}
    (h : validate_image file = some e) :
    e.status = 400 ∧
    (e.detail = "Invalid file format. Only JPG/JPEG images are supported. Received: "
        ++ showCT file.content_type ∨
     e.detail = "Filename is required" ∨
     e.detail = "Invalid file extension. Only .jpg and .jpeg are supported. Received: "
        ++ ((splitext (file.filename.getD [])).2.map Char.toLower).asString) := by
  unfold validate_image at h
  by_cases hA : file.content_type ∉ ALLOWED_CONTENT_TYPES.map some
  · rw [if_pos hA] at h
    obtain rfl := Option.some.inj h
    exact ⟨rfl, .inl rfl⟩
  · rw [if_neg hA] at h
    by_cases hB : (file.filename.getD []).isEmpty = true
    · rw [if_pos hB] at h
      obtain rfl := Option.some.inj h
      exact ⟨rfl, .inr (.inl rfl)⟩
    · rw [if_neg hB] at h
      dsimp only at h
      by_cases hC : (splitext (file.filename.getD [])).2.map Char.toLower ∉ ALLOWED_EXTENSIONS
      · rw [if_pos hC] at h
        obtain rfl := Option.some.inj h
        exact ⟨rfl, .inr (.inr rfl)⟩
      · rw [if_neg hC] at h
        exact absurd h (by simp)

-- ## Characterizations of `extract_text_from_image`

theorem extract_from_image_ok_nil (client : VisionClient) (content : List Nat)
    (hne : content ≠ []) (herr : (client content).error.message = "")
    (hta : (client content).text_annotations = []) :
    extract_text_from_image (some client) content = (.ok ("", 0), 1) := by
  simp only [extract_text_from_image, text_detection]
  rw [if_neg (by simp [hne])]
  rw [if_neg (not_not_intro herr), hta]

theorem extract_from_image_ok_cons (client : VisionClient) (content : List Nat)
    (t : TextAnn) (ts : List TextAnn)
    (hne : content ≠ []) (herr : (client content).error.message = "")
    (hta : (client content).text_annotations = t :: ts) :
    extract_text_from_image (some client) content =
      (.ok (t.description, if t.description ≠ "" then (0.95 : ℚ) else 0), 1) := by
  simp only [extract_text_from_image, text_detection]
  rw [if_neg (by simp [hne])]
  rw [if_neg (not_not_intro herr), hta]

theorem extract_from_image_error_cases {vc : Option VisionClient}
    {content : List Nat} {e : HTTPError}
    (h : (extract_text_from_image vc content).1 = .error e) :
    e = ⟨503, "Vision API service unavailable"⟩ ∨
    (e = ⟨400, "Empty image content"⟩ ∧ content = []) ∨
    e = ⟨500, "Failed to process image with Vision API"⟩ := by
  cases vc with
  | none =>
    simp only [extract_text_from_image] at h
    exact .inl (Except.error.inj h).symm
  | some client =>
    simp only [extract_text_from_image, text_detection] at h
    by_cases h1 : content.isEmpty = true
    · rw [if_pos h1] at h
      exact .inr (.inl ⟨(Except.error.inj h).symm, by simpa using h1⟩)
    · rw [if_neg h1] at h
      by_cases h2 : (client content).error.message ≠ ""
      · rw [if_pos h2] at h
        exact .inr (.inr (Except.error.inj h).symm)
      · rw [if_neg h2] at h
        cases hta : (client content).text_annotations with
        | nil => rw [hta] at h; simp at h
        | cons t ts => rw [hta] at h; simp at h

-- ## Characterizations of `extract_text`

theorem extract_text_validate_err {vc : Option VisionClient} {file : UploadFile}
    {t : Nat} {e : HTTPError} (h : validate_image file = some e) :
    extract_text vc file t = .error e := by
  simp only [extract_text, h]

theorem extract_text_oversize {vc : Option VisionClient} {file : UploadFile} {t : Nat}
    (hv : validate_image file = none) (h : file.content.length > MAX_FILE_SIZE) :
    extract_text vc file t = .error ⟨413, "File too large. Maximum size is 10MB"⟩ := by
  simp only [extract_text, hv]
  rw [if_pos h]

theorem extract_text_empty {vc : Option VisionClient} {file : UploadFile} {t : Nat}
    (hv : validate_image file = none) (hns : ¬ file.content.length > MAX_FILE_SIZE)
    (h0 : file.content.length = 0) :
    extract_text vc file t = .error ⟨400, "Empty file uploaded"⟩ := by
  simp only [extract_text, hv]
  rw [if_neg hns, if_pos h0]

theorem extract_text_pass {vc : Option VisionClient} {file : UploadFile} {t : Nat}
    (hv : validate_image file = none) (hns : ¬ file.content.length > MAX_FILE_SIZE)
    (h0 : ¬ file.content.length = 0) :
    extract_text vc file t =
      match (extract_text_from_image vc file.content).1 with
      | .error e => .error e
      | .ok (x, c) =>
        .ok { success := true, text := x, confidence := c, processing_time_ms := t,
              metadata := ⟨file.filename, file.content.length, file.content_type⟩ } := by
  simp only [extract_text, hv]
  rw [if_neg hns, if_neg h0]

theorem extract_text_pass_error {vc : Option VisionClient} {file : UploadFile}
    {t : Nat} {e : HTTPError}
    (hv : validate_image file = none) (hns : ¬ file.content.length > MAX_FILE_SIZE)
    (h0 : ¬ file.content.length = 0) (he : extract_text vc file t = .error e) :
    (extract_text_from_image vc file.content).1 = .error e := by
  rw [extract_text_pass hv hns h0] at he
  cases hr : (extract_text_from_image vc file.content).1 with
  | error e' =>
    rw [hr] at he
    dsimp only at he
    exact congrArg Except.error (Except.error.inj he)
  | ok p =>
    obtain ⟨x, c⟩ := p
    rw [hr] at he
    simp at he

theorem extract_from_image_provider_err (client : VisionClient) (content : List Nat)
    (hne : content ≠ []) (herr : (client content).error.message ≠ "") :
    extract_text_from_image (some client) content =
      (.error ⟨500, "Failed to process image with Vision API"⟩, 1) := by
  simp only [extract_text_from_image, text_detection]
  rw [if_neg (by simp [hne]), if_pos herr]

theorem extract_text_error_chars {vc : Option VisionClient} {file : UploadFile}
    {t : Nat} {e : HTTPError} (h : extract_text vc file t = .error e) :
    (e.status = 400 ∨ e.status = 413 ∨ e.status = 500 ∨ e.status = 503) ∧
    (e.status = 413 ↔ e.detail = "File too large. Maximum size is 10MB") ∧
    (e.status = 500 ↔ e.detail = "Failed to process image with Vision API") ∧
    (e.status = 503 ↔ e.detail = "Vision API service unavailable") := by
  cases hval : validate_image file with
  | some e' =>
    rw [extract_text_validate_err hval] at h
    obtain rfl := Except.error.inj h
    obtain ⟨hst, hdet⟩ := validate_image_cases hval
    refine ⟨.inl hst, ?_, ?_, ?_⟩ <;> constructor
    · intro h413; exact absurd (hst.symm.trans h413) (by decide)
    · intro hd
      rcases hdet with h1 | h2 | h3
      · exact absurd (h1.symm.trans hd) (str_append_ne_of_length_lt _ _ _ (by decide))
      · exact absurd (h2.symm.trans hd) (by decide)
      · exact absurd (h3.symm.trans hd) (str_append_ne_of_length_lt _ _ _ (by decide))
    · intro h500; exact absurd (hst.symm.trans h500) (by decide)
    · intro hd
      rcases hdet with h1 | h2 | h3
      · exact absurd (h1.symm.trans hd) (str_append_ne_of_length_lt _ _ _ (by decide))
      · exact absurd (h2.symm.trans hd) (by decide)
      · exact absurd (h3.symm.trans hd) (str_append_ne_of_length_lt _ _ _ (by decide))
    · intro h503; exact absurd (hst.symm.trans h503) (by decide)
    · intro hd
      rcases hdet with h1 | h2 | h3
      · exact absurd (h1.symm.trans hd) (str_append_ne_of_length_lt _ _ _ (by decide))
      · exact absurd (h2.symm.trans hd) (by decide)
      · exact absurd (h3.symm.trans hd) (str_append_ne_of_length_lt _ _ _ (by decide))
  | none =>
    by_cases hns : file.content.length > MAX_FILE_SIZE
    · rw [extract_text_oversize hval hns] at h
      obtain rfl := Except.error.inj h
      exact ⟨by decide, by decide, by decide, by decide⟩
    · by_cases h0 : file.content.length = 0
      · rw [extract_text_empty hval hns h0] at h
        obtain rfl := Except.error.inj h
        exact ⟨by decide, by decide, by decide, by decide⟩
      · have hx := extract_text_pass_error hval hns h0 h
        rcases extract_from_image_error_cases hx with rfl | ⟨rfl, _⟩ | rfl
        · exact ⟨by decide, by decide, by decide, by decide⟩
        · exact ⟨by decide, by decide, by decide, by decide⟩
        · exact ⟨by decide, by decide, by decide, by decide⟩

-- ## Claims

/-- Claim C10: `GET /health` always returns top-level status `"healthy"`
regardless of whether the OCR client initialized; only the `vision_api` field
varies, `"healthy"` when the client is initialized and `"unavailable"`
otherwise. -/
theorem c10_health_always_healthy (vc : Option VisionClient) (now : ℚ) :
    (health vc now).status = "healthy" ∧
    (health vc now).vision_api = (if vc.isSome then "healthy" else "unavailable") :=
  ⟨rfl, rfl⟩

/-- Claim C7: when the OCR client was never initialized, extraction fails
immediately with HTTP 503, a detail containing "unavailable", and the
provider is not contacted (zero `text_detection` calls); through the handler,
a request that passed upload validation gets a 503 response. -/
theorem c7_client_uninitialized (content : List Nat) (file : UploadFile) (t : Nat) :
    extract_text_from_image none content =
      (.error ⟨503, "Vision API service unavailable"⟩, 0) ∧
    "unavailable".data <:+: "Vision API service unavailable".data ∧
    (validate_image file = none → ¬ file.content.length > MAX_FILE_SIZE →
      ¬ file.content.length = 0 →
      (respond (extract_text none file t)).status = 503) := by
  refine ⟨rfl, by decide, fun hv hns h0 => ?_⟩
  have hx : (extract_text_from_image (none : Option VisionClient) file.content).1 =
      .error ⟨503, "Vision API service unavailable"⟩ := rfl
  rw [extract_text_pass hv hns h0, hx]
  rfl

/-- Witness for C7 at a concrete validated request. -/
theorem c7_witness :
    (respond (extract_text none ⟨some "image/jpeg", some "a.jpg".data, [1]⟩ 0)).status
      = 503 :=
  (c7_client_uninitialized [1] ⟨some "image/jpeg", some "a.jpg".data, [1]⟩ 0).2.2
    (by decide) (by decide) (by decide)

/-- Claim C6: a provider response carrying a non-empty error message makes
extraction fail with HTTP 500 after exactly one provider call (no retry), and
the handler surfaces the 500 status (the failure is not masked into a
success). -/
theorem c6_provider_error (client : VisionClient) (content : List Nat)
    (file : UploadFile) (t : Nat) :
    (content ≠ [] → (client content).error.message ≠ "" →
      extract_text_from_image (some client) content =
        (.error ⟨500, "Failed to process image with Vision API"⟩, 1)) ∧
    (validate_image file = none → ¬ file.content.length > MAX_FILE_SIZE →
      ¬ file.content.length = 0 → (client file.content).error.message ≠ "" →
      (respond (extract_text (some client) file t)).status = 500) := by
  constructor
  · intro hne herr
    exact extract_from_image_provider_err client content hne herr
  · intro hv hns h0 herr
    have hne : file.content ≠ [] := fun hc => h0 (by rw [hc]; rfl)
    rw [extract_text_pass hv hns h0,
      extract_from_image_provider_err client file.content hne herr]
    rfl

/-- Witness for C6 at a concrete erroring provider. -/
theorem c6_witness :
    extract_text_from_image (some fun _ => ⟨⟨"boom"⟩, []⟩) [1] =
      (.error ⟨500, "Failed to process image with Vision API"⟩, 1) :=
  (c6_provider_error (fun _ => ⟨⟨"boom"⟩, []⟩) [1]
    ⟨some "image/jpeg", some "a.jpg".data, [1]⟩ 0).1 (by decide) (by decide)

/-- Counterexample to C2 as stated: a non-empty result list whose first entry
has empty text yields confidence 0, not the fixed 0.95 placeholder. -/
theorem c2_counterexample :
    (extract_text_from_image (some fun _ => ⟨⟨""⟩, [⟨""⟩]⟩) [1]).1 = .ok ("", 0) ∧
    (0 : ℚ) ≠ 0.95 := by
  constructor
  · rfl
  · norm_num

/-- Claim C2 (amended): with an initialized client whose response carries no
error, an empty result list yields text `""` and confidence `0`; a non-empty
result list yields the first entry's text, with confidence the fixed 0.95
placeholder when that text is non-empty and `0` when it is empty. -/
theorem c2_amended (client : VisionClient) (content : List Nat)
    (hne : content ≠ []) (herr : (client content).error.message = "") :
    ((client content).text_annotations = [] →
      (extract_text_from_image (some client) content).1 = .ok ("", 0)) ∧
    (∀ a ts, (client content).text_annotations = a :: ts →
      (extract_text_from_image (some client) content).1 =
        .ok (a.description, if a.description ≠ "" then (0.95 : ℚ) else 0)) := by
  constructor
  · intro hta
    rw [extract_from_image_ok_nil client content hne herr hta]
  · intro a ts hta
    rw [extract_from_image_ok_cons client content a ts hne herr hta]

/-- Witness for the amended C2 at a concrete non-empty annotation list. -/
theorem c2_witness :
    (extract_text_from_image (some fun _ => ⟨⟨""⟩, [⟨"Hello"⟩]⟩) [1]).1 =
      .ok ("Hello", if ("Hello" : String) ≠ "" then (0.95 : ℚ) else 0) :=
  (c2_amended (fun _ => ⟨⟨""⟩, [⟨"Hello"⟩]⟩) [1] (by decide) rfl).2 ⟨"Hello"⟩ [] rfl

/-- Claim C1: an upload with an allowed JPEG content type, a filename whose
(lowercased) extension is `.jpg`/`.jpeg`, and a byte length in `(0, 10MB]`,
processed with an initialized OCR client whose response carries no error,
yields HTTP 200 with `success = true` and metadata echoing the declared
filename, byte length, and content type. -/
theorem c1_valid_jpeg_success (client : VisionClient) (file : UploadFile) (t : Nat)
    (hct : file.content_type ∈ ALLOWED_CONTENT_TYPES.map some)
    (hext : (splitext (file.filename.getD [])).2.map Char.toLower ∈ ALLOWED_EXTENSIONS)
    (hpos : 0 < file.content.length)
    (hmax : file.content.length ≤ MAX_FILE_SIZE)
    (herr : (client file.content).error.message = "") :
    ∃ s : SuccessResponseModel,
      respond (extract_text (some client) file t) = ⟨200, .success s⟩ ∧
      s.success = true ∧
      s.metadata = ⟨file.filename, file.content.length, file.content_type⟩ := by
  have hname : (file.filename.getD []).isEmpty = false := by
    cases hf : file.filename with
    | none => rw [hf] at hext; exact absurd hext (by decide)
    | some s =>
      rw [hf] at hext
      cases s with
      | nil => exact absurd hext (by decide)
      | cons a as => rfl
  have hv : validate_image file = none := validate_image_none hct hname hext
  have hns : ¬ file.content.length > MAX_FILE_SIZE := by omega
  have h0 : ¬ file.content.length = 0 := by omega
  have hne : file.content ≠ [] := by
    intro hc
    rw [hc] at hpos
    exact absurd hpos (by decide)
  rw [extract_text_pass hv hns h0]
  cases hta : (client file.content).text_annotations with
  | nil =>
    rw [extract_from_image_ok_nil client file.content hne herr hta]
    exact ⟨_, rfl, rfl, rfl⟩
  | cons a as =>
    rw [extract_from_image_ok_cons client file.content a as hne herr hta]
    exact ⟨_, rfl, rfl, rfl⟩

/-- Witness for C1 at a concrete valid upload. -/
theorem c1_witness :
    ∃ s : SuccessResponseModel,
      respond (extract_text (some fun _ => ⟨⟨""⟩, [⟨"Hello"⟩]⟩)
          ⟨some "image/jpeg", some "test.jpg".data, [7]⟩ 5) = ⟨200, .success s⟩ ∧
      s.success = true ∧
      s.metadata = ⟨some "test.jpg".data, [7].length, some "image/jpeg"⟩ :=
  c1_valid_jpeg_success (fun _ => ⟨⟨""⟩, [⟨"Hello"⟩]⟩)
    ⟨some "image/jpeg", some "test.jpg".data, [7]⟩ 5
    (by decide) (by decide) (by decide) (by decide) rfl

/-- Claim C5: for an upload passing validation, a payload of exactly
`10 * 1024 * 1024` bytes is never rejected with status 413, while any payload
strictly larger yields the 413 payload-too-large response. -/
theorem c5_size_boundary (vc : Option VisionClient) (file : UploadFile) (t : Nat) :
    (validate_image file = none → file.content.length = MAX_FILE_SIZE →
      ∀ e, extract_text vc file t = .error e → e.status ≠ 413) ∧
    (validate_image file = none → file.content.length > MAX_FILE_SIZE →
      respond (extract_text vc file t) = payload_too_large_handler) := by
  constructor
  · intro hv hlen e he
    have hns : ¬ file.content.length > MAX_FILE_SIZE := by omega
    have h0 : ¬ file.content.length = 0 := by rw [hlen]; decide
    have hx := extract_text_pass_error hv hns h0 he
    rcases extract_from_image_error_cases hx with rfl | ⟨rfl, _⟩ | rfl
    · decide
    · decide
    · decide
  · intro hv hlen
    rw [extract_text_oversize hv hlen]
    rfl

/-- Witness for C5 at a payload one byte over the limit. -/
theorem c5_witness :
    respond (extract_text none
        ⟨some "image/jpeg", some "a.jpg".data, List.replicate (MAX_FILE_SIZE + 1) 0⟩ 0) =
      payload_too_large_handler := by
  refine (c5_size_boundary none _ 0).2 ?_ ?_
  · exact validate_image_none (by decide) (by decide) (by decide)
  · simp only [List.length_replicate]
    omega

/-- Claim C8: the `Empty image content` guard inside the extraction function
is unreachable through the `POST /extract-text` handler, which has already
rejected zero-byte payloads: the handler never returns that error. -/
theorem c8_empty_guard_unreachable (vc : Option VisionClient) (file : UploadFile)
    (t : Nat) :
    extract_text vc file t ≠ .error ⟨400, "Empty image content"⟩ := by
  intro he
  cases hval : validate_image file with
  | some e =>
    rw [extract_text_validate_err hval] at he
    have hd : e.detail = "Empty image content" :=
      congrArg HTTPError.detail (Except.error.inj he)
    obtain ⟨hst, hdet⟩ := validate_image_cases hval
    rcases hdet with h1 | h2 | h3
    · exact absurd (h1.symm.trans hd) (str_append_ne_of_length_lt _ _ _ (by decide))
    · exact absurd (h2.symm.trans hd) (by decide)
    · exact absurd (h3.symm.trans hd) (str_append_ne_of_length_lt _ _ _ (by decide))
  | none =>
    by_cases hns : file.content.length > MAX_FILE_SIZE
    · rw [extract_text_oversize hval hns] at he
      exact absurd (Except.error.inj he) (by decide)
    · by_cases h0 : file.content.length = 0
      · rw [extract_text_empty hval hns h0] at he
        exact absurd (Except.error.inj he) (by decide)
      · have hx := extract_text_pass_error hval hns h0 he
        rcases extract_from_image_error_cases hx with h503 | ⟨_, hcon⟩ | h500
        · exact absurd h503 (by decide)
        · exact h0 (by rw [hcon]; rfl)
        · exact absurd h500 (by decide)

/-- Witness for C8 at a concrete request. -/
theorem c8_witness :
    extract_text none ⟨some "image/jpeg", some "a.jpg".data, [1]⟩ 0 ≠
      .error ⟨400, "Empty image content"⟩ :=
  c8_empty_guard_unreachable none ⟨some "image/jpeg", some "a.jpg".data, [1]⟩ 0

/-- Counterexample to C3 as stated: a failing request (400, invalid content
type) whose response body is not the failure envelope but FastAPI's default
detail-only JSON. -/
theorem c3_counterexample :
    (respond (extract_text none ⟨some "image/png", some "a.jpg".data, [1]⟩ 0)).status
        = 400 ∧
    (respond (extract_text none ⟨some "image/png", some "a.jpg".data, [1]⟩ 0)).body.isEnvelope
        = false := by
  constructor
  · rfl
  · rfl

/-- Claim C3 (amended): for every failing request the HTTP status mirrors the
error kind (400 validation, 413 payload-too-large with its fixed detail, 500
provider error, 503 client unavailable), but only the 413 response carries
the failure envelope (success false, error category, detail, zero processing
time); the other failures carry only the human-readable detail. -/
theorem c3_amended (vc : Option VisionClient) (file : UploadFile) (t : Nat)
    (e : HTTPError) (h : extract_text vc file t = .error e) :
    respond (extract_text vc file t) =
      ⟨e.status,
        if e.status = 413
        then .errorEnvelope { success := false, error := "Payload too large",
                              detail := "File size exceeds 10MB limit",
                              processing_time_ms := 0 }
        else .detailOnly e.detail⟩ ∧
    (e.status = 400 ∨ e.status = 413 ∨ e.status = 500 ∨ e.status = 503) ∧
    (e.status = 413 ↔ e.detail = "File too large. Maximum size is 10MB") ∧
    (e.status = 500 ↔ e.detail = "Failed to process image with Vision API") ∧
    (e.status = 503 ↔ e.detail = "Vision API service unavailable") := by
  refine ⟨?_, extract_text_error_chars h⟩
  rw [h]
  simp only [respond, payload_too_large_handler]
  by_cases h413 : e.status = 413
  · rw [if_pos h413, if_pos h413, h413]
  · rw [if_neg h413, if_neg h413]

/-- Witness for the amended C3 at a concrete 400 failure. -/
theorem c3_witness :
    respond (extract_text none ⟨some "image/png", some "a.jpg".data, [1]⟩ 0) =
      ⟨(400 : Nat),
        if (400 : Nat) = 413
        then .errorEnvelope { success := false, error := "Payload too large",
                              detail := "File size exceeds 10MB limit",
                              processing_time_ms := 0 }
        else .detailOnly
          "Invalid file format. Only JPG/JPEG images are supported. Received: image/png"⟩ :=
  (c3_amended none ⟨some "image/png", some "a.jpg".data, [1]⟩ 0
    ⟨400, "Invalid file format. Only JPG/JPEG images are supported. Received: image/png"⟩
    (by
      have hs : ("Invalid file format. Only JPG/JPEG images are supported. Received: "
          ++ showCT (some "image/png")) =
          "Invalid file format. Only JPG/JPEG images are supported. Received: image/png" := by
        decide
      rw [extract_text_validate_err (validate_image_ct (by decide)), hs])).1

/-- Claim C4: validation performs its checks in the order content-type,
missing filename, extension, oversized payload, empty payload; the first
failing check alone determines the error, and the five errors are pairwise
distinct in kind and message. -/
theorem c4_validation_order (vc : Option VisionClient) (file : UploadFile) (t : Nat) :
    (file.content_type ∉ ALLOWED_CONTENT_TYPES.map some →
      extract_text vc file t = .error ⟨400,
        "Invalid file format. Only JPG/JPEG images are supported. Received: "
          ++ showCT file.content_type⟩) ∧
    (file.content_type ∈ ALLOWED_CONTENT_TYPES.map some →
      (file.filename.getD []).isEmpty = true →
      extract_text vc file t = .error ⟨400, "Filename is required"⟩) ∧
    (file.content_type ∈ ALLOWED_CONTENT_TYPES.map some →
      (file.filename.getD []).isEmpty = false →
      (splitext (file.filename.getD [])).2.map Char.toLower ∉ ALLOWED_EXTENSIONS →
      extract_text vc file t = .error ⟨400,
        "Invalid file extension. Only .jpg and .jpeg are supported. Received: "
          ++ ((splitext (file.filename.getD [])).2.map Char.toLower).asString⟩) ∧
    (validate_image file = none → file.content.length > MAX_FILE_SIZE →
      extract_text vc file t = .error ⟨413, "File too large. Maximum size is 10MB"⟩) ∧
    (validate_image file = none → ¬ file.content.length > MAX_FILE_SIZE →
      file.content.length = 0 →
      extract_text vc file t = .error ⟨400, "Empty file uploaded"⟩) ∧
    (⟨400, "Invalid file format. Only JPG/JPEG images are supported. Received: "
        ++ showCT file.content_type⟩ : HTTPError) ≠ ⟨400, "Filename is required"⟩ ∧
    (⟨400, "Invalid file format. Only JPG/JPEG images are supported. Received: "
        ++ showCT file.content_type⟩ : HTTPError) ≠ ⟨400,
      "Invalid file extension. Only .jpg and .jpeg are supported. Received: "
        ++ ((splitext (file.filename.getD [])).2.map Char.toLower).asString⟩ ∧
    (⟨400, "Invalid file format. Only JPG/JPEG images are supported. Received: "
        ++ showCT file.content_type⟩ : HTTPError) ≠ ⟨413,
      "File too large. Maximum size is 10MB"⟩ ∧
    (⟨400, "Invalid file format. Only JPG/JPEG images are supported. Received: "
        ++ showCT file.content_type⟩ : HTTPError) ≠ ⟨400, "Empty file uploaded"⟩ ∧
    (⟨400, "Filename is required"⟩ : HTTPError) ≠ ⟨400,
      "Invalid file extension. Only .jpg and .jpeg are supported. Received: "
        ++ ((splitext (file.filename.getD [])).2.map Char.toLower).asString⟩ ∧
    (⟨400, "Filename is required"⟩ : HTTPError) ≠ ⟨413,
      "File too large. Maximum size is 10MB"⟩ ∧
    (⟨400, "Filename is required"⟩ : HTTPError) ≠ ⟨400, "Empty file uploaded"⟩ ∧
    (⟨400, "Invalid file extension. Only .jpg and .jpeg are supported. Received: "
        ++ ((splitext (file.filename.getD [])).2.map Char.toLower).asString⟩ : HTTPError)
      ≠ ⟨413, "File too large. Maximum size is 10MB"⟩ ∧
    (⟨400, "Invalid file extension. Only .jpg and .jpeg are supported. Received: "
        ++ ((splitext (file.filename.getD [])).2.map Char.toLower).asString⟩ : HTTPError)
      ≠ ⟨400, "Empty file uploaded"⟩ ∧
    (⟨413, "File too large. Maximum size is 10MB"⟩ : HTTPError) ≠
      ⟨400, "Empty file uploaded"⟩ := by
  refine ⟨fun h => extract_text_validate_err (validate_image_ct h),
    fun h1 h2 => extract_text_validate_err (validate_image_name h1 h2),
    fun h1 h2 h3 => extract_text_validate_err (validate_image_ext h1 h2 h3),
    fun hv h => extract_text_oversize hv h,
    fun hv hns h0 => extract_text_empty hv hns h0,
    ?_, ?_, ?_, ?_, ?_, ?_, ?_, ?_, ?_, ?_⟩
  · exact fun he =>
      str_append_ne_of_length_lt _ _ _ (by decide) (congrArg HTTPError.detail he)
  · exact fun he =>
      str_append_ne_append _ _ _ _ 14 (by decide) (by decide) (by decide)
        (congrArg HTTPError.detail he)
  · exact HTTPError.ne_of_status (by simp)
  · exact fun he =>
      str_append_ne_of_length_lt _ _ _ (by decide) (congrArg HTTPError.detail he)
  · exact fun he =>
      str_append_ne_of_length_lt _ _ _ (by decide)
        (congrArg HTTPError.detail he).symm
  · exact HTTPError.ne_of_status (by simp)
  · exact by decide
  · exact HTTPError.ne_of_status (by simp)
  · exact fun he =>
      str_append_ne_of_length_lt _ _ _ (by decide) (congrArg HTTPError.detail he)
  · exact HTTPError.ne_of_status (by simp)

/-- Witness for C4 at a concrete upload failing the first check. -/
theorem c4_witness :
    extract_text none ⟨some "image/png", some "a.jpg".data, [1]⟩ 0 =
      .error ⟨400, "Invalid file format. Only JPG/JPEG images are supported. Received: "
        ++ showCT (some "image/png")⟩ :=
  (c4_validation_order none ⟨some "image/png", some "a.jpg".data, [1]⟩ 0).1 (by decide)

-- ## Case insensitivity of the extension check (C9)

theorem charToLower_not_upper {c : Char} (h : ¬(65 ≤ c.toNat ∧ c.toNat ≤ 90)) :
    c.toLower = c := by
  simp only [Char.toLower]
  rw [if_neg h]

theorem char_upper_key {c : Char} (h : 65 ≤ c.toNat ∧ c.toNat ≤ 90) :
    c.toLower ≠ '.' ∧ c.toLower ≠ '/' ∧ c.toLower.toLower = c.toLower := by
  obtain ⟨h1, h2⟩ := h
  have key : ∀ n, 65 ≤ n → n ≤ 90 →
      (Char.ofNat n).toLower ≠ '.' ∧ (Char.ofNat n).toLower ≠ '/' ∧
      (Char.ofNat n).toLower.toLower = (Char.ofNat n).toLower := by
    intro n hn1 hn2
    interval_cases n <;> exact ⟨by decide, by decide, by decide⟩
  have hk := key c.toNat h1 h2
  rwa [Char.ofNat_toNat] at hk

theorem toLower_dot_iff (c : Char) : c.toLower = '.' ↔ c = '.' := by
  by_cases h : 65 ≤ c.toNat ∧ c.toNat ≤ 90
  · constructor
    · intro hl
      exact absurd hl (char_upper_key h).1
    · intro hc
      rw [hc] at h
      exact absurd h (by decide)
  · rw [charToLower_not_upper h]

theorem toLower_slash_iff (c : Char) : c.toLower = '/' ↔ c = '/' := by
  by_cases h : 65 ≤ c.toNat ∧ c.toNat ≤ 90
  · constructor
    · intro hl
      exact absurd hl (char_upper_key h).2.1
    · intro hc
      rw [hc] at h
      exact absurd h (by decide)
  · rw [charToLower_not_upper h]

theorem toLower_idem (c : Char) : c.toLower.toLower = c.toLower := by
  by_cases h : 65 ≤ c.toNat ∧ c.toNat ≤ 90
  · exact (char_upper_key h).2.2
  · rw [charToLower_not_upper h]
    exact charToLower_not_upper h

/-- Two characters agree on being a dot and on being a path separator: the
only facts `splitext` inspects. -/
def CharClassEq (a b : Char) : Prop := (a = '.' ↔ b = '.') ∧ (a = '/' ↔ b = '/')

theorem charClassEq_refl (a : Char) : CharClassEq a a := ⟨Iff.rfl, Iff.rfl⟩

theorem charClassEq_toLower (a : Char) : CharClassEq a a.toLower :=
  ⟨(toLower_dot_iff a).symm, (toLower_slash_iff a).symm⟩

theorem rfind_congr {c : Char} {w w' : List Char}
    (h : List.Forall₂ (fun a b => (a = c) ↔ (b = c)) w w') :
    rfind c w = rfind c w' := by
  induction h with
  | nil => rfl
  | @cons a b as bs hab htl ih =>
    simp only [rfind]
    rw [ih]
    by_cases hr : rfind c bs ≥ 0
    · rw [if_pos hr, if_pos hr]
    · rw [if_neg hr, if_neg hr]
      by_cases ha : a = c
      · rw [if_pos ha, if_pos (hab.mp ha)]
      · rw [if_neg ha, if_neg (fun hb => ha (hab.mpr hb))]

theorem forall₂_getD_dot {w w' : List Char}
    (h : List.Forall₂ CharClassEq w w') (i : Nat) :
    (w.getD i ' ' = '.') ↔ (w'.getD i ' ' = '.') := by
  induction h generalizing i with
  | nil => exact Iff.rfl
  | @cons a b as bs hab htl ih =>
    cases i with
    | zero => simpa only [List.getD_cons_zero] using hab.1
    | succ n => simpa only [List.getD_cons_succ] using ih n

theorem splitextIdx_congr {w w' : List Char} (h : List.Forall₂ CharClassEq w w') :
    splitextIdx w = splitextIdx w' := by
  have hdot : rfind '.' w = rfind '.' w' := rfind_congr (h.imp fun a b hab => hab.1)
  have hsl : rfind '/' w = rfind '/' w' := rfind_congr (h.imp fun a b hab => hab.2)
  have hany : ∀ lo len,
      ((List.range' lo len).any fun i => decide (w.getD i ' ' ≠ '.')) =
      ((List.range' lo len).any fun i => decide (w'.getD i ' ' ≠ '.')) := by
    intro lo len
    have hfn : (fun i => decide (w.getD i ' ' ≠ '.')) =
        (fun i => decide (w'.getD i ' ' ≠ '.')) := by
      funext i
      exact decide_eq_decide.mpr (not_congr (forall₂_getD_dot h i))
    rw [hfn]
  simp only [splitextIdx]
  rw [hdot, hsl, hany]

theorem rfind_lt_length (c : Char) (w : List Char) : rfind c w < (w.length : Int) := by
  induction w with
  | nil => simp [rfind]
  | cons a as ih =>
    simp only [rfind, List.length_cons]
    by_cases hr : rfind c as ≥ 0
    · rw [if_pos hr]
      push_cast
      omega
    · rw [if_neg hr]
      by_cases ha : a = c
      · rw [if_pos ha]
        push_cast
        omega
      · rw [if_neg ha]
        push_cast
        omega

theorem splitextIdx_le_length {w : List Char} {d : Nat} (h : splitextIdx w = some d) :
    d ≤ w.length := by
  simp only [splitextIdx] at h
  split_ifs at h with hc
  obtain rfl := Option.some.inj h
  have hb := rfind_lt_length '.' w
  omega

theorem splitext_append (p : List Char) : (splitext p).1 ++ (splitext p).2 = p := by
  simp only [splitext]
  cases splitextIdx p <;> simp

theorem forall₂_refl_charClassEq (l : List Char) : List.Forall₂ CharClassEq l l := by
  induction l with
  | nil => exact .nil
  | cons a as ih => exact .cons (charClassEq_refl a) ih

theorem forall₂_map_toLower (l : List Char) :
    List.Forall₂ CharClassEq l (l.map Char.toLower) := by
  induction l with
  | nil => exact .nil
  | cons a as ih => exact .cons (charClassEq_toLower a) ih

theorem splitext_lowerExt (w : List Char) :
    splitext (lowerExt w) = ((splitext w).1, (splitext w).2.map Char.toLower) := by
  cases hidx : splitextIdx w with
  | none =>
    have hw : splitext w = (w, []) := by simp [splitext, hidx]
    have hl : lowerExt w = w := by simp [lowerExt, hw]
    rw [hl, hw]
    simp
  | some d =>
    have hsw : splitext w = (w.take d, w.drop d) := by simp [splitext, hidx]
    have hF : List.Forall₂ CharClassEq w (lowerExt w) := by
      have hw : (splitext w).1 ++ (splitext w).2 = w := splitext_append w
      have h2 : List.Forall₂ CharClassEq ((splitext w).1 ++ (splitext w).2) (lowerExt w) :=
        List.rel_append (forall₂_refl_charClassEq _) (forall₂_map_toLower _)
      rwa [hw] at h2
    have hidx' : splitextIdx (lowerExt w) = some d := (splitextIdx_congr hF).symm.trans hidx
    have hd : d ≤ w.length := splitextIdx_le_length hidx
    have hlw : lowerExt w = w.take d ++ (w.drop d).map Char.toLower := by
      simp [lowerExt, hsw]
    have hs' : splitext (lowerExt w) = ((lowerExt w).take d, (lowerExt w).drop d) := by
      simp [splitext, hidx']
    have htk : (lowerExt w).take d = w.take d := by
      rw [hlw]
      exact List.take_left' (by rw [List.length_take]; omega)
    have hdr : (lowerExt w).drop d = (w.drop d).map Char.toLower := by
      rw [hlw]
      exact List.drop_left' (by rw [List.length_take]; omega)
    rw [hs', htk, hdr, hsw]

/-- Claim C9: filename-extension validation is case-insensitive: validating an
upload is unchanged by lowercasing the filename's extension, and `.JPG` /
`.JpEg` names pass the extension check. -/
theorem c9_extension_case_insensitive (ct : Option String) (name : List Char)
    (content : List Nat) :
    validate_image ⟨ct, some name, content⟩ =
      validate_image ⟨ct, some (lowerExt name), content⟩ ∧
    validate_image ⟨some "image/jpeg", some "a.JPG".data, content⟩ = none ∧
    validate_image ⟨some "image/jpeg", some "a.JpEg".data, content⟩ = none := by
  refine ⟨?_, ?_, ?_⟩
  · have hext : (splitext (lowerExt name)).2.map Char.toLower =
        (splitext name).2.map Char.toLower := by
      rw [splitext_lowerExt, List.map_map]
      exact List.map_congr_left fun a _ => toLower_idem a
    have hlen : (lowerExt name).length = name.length := by
      have hap := congrArg List.length (splitext_append name)
      rw [List.length_append] at hap
      simp only [lowerExt, List.length_append, List.length_map]
      omega
    simp only [validate_image]
    by_cases hct : ct ∉ ALLOWED_CONTENT_TYPES.map some
    · rw [if_pos hct, if_pos hct]
    · rw [if_neg hct, if_neg hct]
      simp only [Option.getD_some]
      by_cases hnil : name = []
      · subst hnil
        rfl
      · have hnil' : lowerExt name ≠ [] := by
          intro hz
          apply hnil
          have hz0 := congrArg List.length hz
          rw [hlen] at hz0
          exact List.length_eq_zero.mp hz0
        have hA : ¬(name.isEmpty = true) := by simp [hnil]
        have hB : ¬((lowerExt name).isEmpty = true) := by simp [hnil']
        rw [if_neg hA, if_neg hB, hext]
  · exact validate_image_none
      (show (some "image/jpeg" : Option String) ∈ ALLOWED_CONTENT_TYPES.map some by decide)
      (show ("a.JPG".data : List Char).isEmpty = false by decide)
      (show (splitext "a.JPG".data).2.map Char.toLower ∈ ALLOWED_EXTENSIONS by decide)
  · exact validate_image_none
      (show (some "image/jpeg" : Option String) ∈ ALLOWED_CONTENT_TYPES.map some by decide)
      (show ("a.JpEg".data : List Char).isEmpty = false by decide)
      (show (splitext "a.JpEg".data).2.map Char.toLower ∈ ALLOWED_EXTENSIONS by decide)
